import Mathlib

/-!
A shallow embedding of the scanner core of `dkooll/issuor`
(`internal/scanner/scanner.go`): the data model, the association classifier,
the item extractor, the per-node filter pipeline of `Scanner.search`, the
construction checks of `New`, and a small-step model of the concurrent
orchestration in `Scanner.Scan` (two category workers, a shared cancellable
context, a buffered completion channel drained by the orchestrator loop).

Modelling conventions:
- Go strings are Lean `String`; `strings.HasPrefix`, `strings.ToLower` and
  `strings.TrimSpace` are modelled character-listwise (`hasPrefixStr`,
  `toLowerStr`, `trimSpace`) so that every definition evaluates by kernel
  reduction; Go's Unicode whitespace class is modelled by its ASCII subset,
  which is what the repository's inputs use.
- Go maps used as string sets (`repos`, `skipUsers`) are `Finset String`
  resp. a deduplicated `List String`; only membership and emptiness of these
  is ever consulted by the source.
- The GraphQL transport is a page oracle: the successive answers of
  `graph.Query` for one category run are a `List (Except String Page)`,
  consumed in order; an exhausted oracle stands for a transport that never
  answers and is modelled as a transport error.
- `githubv4.DateTime` is carried opaquely as a `String`; `githubv4.Int` as
  `Int`; `githubv4.ID` as the `String` it unmarshals to (the source only
  compares it with `""`).
-/

/-- ASCII subset of Go's `unicode.IsSpace`, the whitespace class used by
`strings.TrimSpace`. -/
def isSpaceChar (c : Char) : Bool :=
  c = ' ' || c = '\t' || c = '\n' || c = '\r'

/-- Model of `strings.TrimSpace`: drop leading and trailing whitespace. -/
def trimSpace (s : String) : String :=
  ⟨((s.data.dropWhile isSpaceChar).reverse.dropWhile isSpaceChar).reverse⟩

/-- `strings.TrimSpace s == ""`: every character of `s` is whitespace. -/
def isBlank (s : String) : Bool :=
  s.data.all isSpaceChar

/-- Model of `strings.ToLower` (ASCII range, characterwise). -/
def toLowerStr (s : String) : String :=
  ⟨s.data.map Char.toLower⟩

/-- Model of `strings.HasPrefix s pre`. -/
def hasPrefixStr (s pre : String) : Bool :=
  pre.data.isPrefixOf s.data

/-- `const graphPageSize = 100`. -/
def graphPageSize : Int := 100

/-- `type Item struct` of scanner.go. -/
structure Item where
  Repo : String
  Number : Int
  Title : String
  Author : String
  CreatedAt : String
deriving DecidableEq, Repr

/-- `type Audience string`. -/
abbrev Audience := String

/-- `AudienceAll Audience = "all"`. -/
def AudienceAll : Audience := "all"

/-- `AudienceInternal Audience = "internal"`. -/
def AudienceInternal : Audience := "internal"

/-- `AudienceExternal Audience = "external"`. -/
def AudienceExternal : Audience := "external"

/-- `type Result struct` of scanner.go; `TotalRepos` (a Go `int` holding a
`len`) is a `Nat`. -/
structure Result where
  ExternalIssues : List Item
  InternalIssues : List Item
  ExternalPRs : List Item
  InternalPRs : List Item
  TotalRepos : Nat
  IncludeIssues : Bool
  IncludePRs : Bool
  Audience : Audience
deriving DecidableEq, Repr

/-- `type Config struct` of scanner.go. -/
structure Config where
  Organization : String
  RepoPrefix : String
  SkipUsers : List String
  IncludeIssues : Bool
  IncludePRs : Bool
  Audience : Audience
deriving DecidableEq, Repr

/-- `type Scanner struct`: the validated config and the skip map built by
`buildSkipMap`. The transport handle and the optional logger are not data the
filter pipeline consults (the transport is passed as a page oracle, the
logger is purely observational), so they are not carried here. -/
structure Scanner where
  cfg : Config
  skipUsers : List String
deriving DecidableEq, Repr

/-- Author object of a search node (`Author struct { Login githubv4.String }`). -/
structure AuthorRef where
  Login : String
deriving DecidableEq, Repr

/-- Repository object of a search node (`Repository struct { Name githubv4.String }`). -/
structure RepositoryRef where
  Name : String
deriving DecidableEq, Repr

/-- `type issueNode struct` of scanner.go. -/
structure IssueNode where
  ID : String
  Number : Int
  Title : String
  CreatedAt : String
  AuthorAssociation : String
  Author : AuthorRef
  Repository : RepositoryRef
deriving DecidableEq, Repr

/-- `type pullRequestNode struct` of scanner.go. -/
structure PullRequestNode where
  ID : String
  Number : Int
  Title : String
  CreatedAt : String
  AuthorAssociation : String
  Author : AuthorRef
  Repository : RepositoryRef
deriving DecidableEq, Repr

/-- `type searchNode struct`: a GraphQL inline-fragment pair; both embedded
nodes are always present, an unmatched fragment leaves Go zero values. -/
structure SearchNode where
  Issue : IssueNode
  PullRequest : PullRequestNode
deriving DecidableEq, Repr

/-- One page of `searchQuery.Search`: the fields of the `Search` struct the
loop of `Scanner.search` consults. -/
structure Page where
  IssueCount : Int
  HasNextPage : Bool
  EndCursor : String
  Nodes : List SearchNode
deriving DecidableEq, Repr

/-- One answer of `graph.Query` for one page request. -/
abbrev QueryResult := Except String Page

/-- The five return values of `Scanner.extractItem`. -/
structure Extracted where
  item : Item
  repoName : String
  author : String
  internalAuthor : Bool
  ok : Bool
deriving DecidableEq, Repr

/-- The private accumulators of one `Scanner.search` run: the `external` and
`internal` slices and the `repos` set. -/
structure SearchBufs where
  external : List Item
  internal : List Item
  repos : Finset String
deriving DecidableEq

/-- `type segment struct` of `Scanner.Scan`: one category worker's completed
output, as sent on `resultCh`. `err = none` models a nil error. -/
structure Segment where
  external : List Item
  internal : List Item
  repos : Finset String
  isPR : Bool
  err : Option String
deriving DecidableEq

/-- `githubv4.CommentAuthorAssociationMember`. -/
def AssociationMember : String := "MEMBER"

/-- `githubv4.CommentAuthorAssociationOwner`. -/
def AssociationOwner : String := "OWNER"

/-- `githubv4.CommentAuthorAssociationCollaborator`. -/
def AssociationCollaborator : String := "COLLABORATOR"

/-- `isInternalAssociation` of scanner.go: the switch over the three internal
association values. -/
def isInternalAssociation (assoc : String) : Bool :=
  if assoc = AssociationMember ∨ assoc = AssociationOwner ∨ assoc = AssociationCollaborator then
    true
  else
    false

/-- `buildSkipMap` of scanner.go: nil for no users, otherwise the set of
lower-cased, trimmed, non-blank entries (the Go map is a string set; a
deduplicated list carries the same membership). -/
def buildSkipMap (users : List String) : List String :=
  if users.isEmpty then []
  else (((users.map fun u => trimSpace (toLowerStr u)).filter fun u => u ≠ "")).dedup

/-- `New` of scanner.go. `graphPresent` models `graph != nil`; options
(`WithLogger`) only install the observational logger and are not modelled. -/
def New (cfg : Config) (graphPresent : Bool) : Except String Scanner :=
  if graphPresent = false then
    .error "github graphql client is required"
  else if isBlank cfg.Organization then
    .error "organization is required"
  else if isBlank cfg.RepoPrefix then
    .error "repository prefix is required"
  else
    let cfg1 := if cfg.IncludeIssues = false ∧ cfg.IncludePRs = false then
      { cfg with IncludeIssues := true, IncludePRs := true } else cfg
    let cfg2 := if cfg1.Audience = "" then { cfg1 with Audience := AudienceAll } else cfg1
    if cfg2.Audience ≠ AudienceAll ∧ cfg2.Audience ≠ AudienceInternal ∧
        cfg2.Audience ≠ AudienceExternal then
      .error "invalid audience (expected all, internal, or external)"
    else
      .ok { cfg := cfg2, skipUsers := buildSkipMap cfg2.SkipUsers }

/-- `Scanner.extractItem` of scanner.go: reads the PR or the issue fragment
per `isPR`, failing (ok=false, zero values) when the identity or repository
name is empty. -/
def Scanner.extractItem (_s : Scanner) (node : SearchNode) (isPR : Bool) : Extracted :=
  if isPR then
    if node.PullRequest.ID = "" ∨ node.PullRequest.Repository.Name = "" then
      ⟨⟨"", 0, "", "", ""⟩, "", "", false, false⟩
    else
      ⟨⟨node.PullRequest.Repository.Name, node.PullRequest.Number, node.PullRequest.Title,
          node.PullRequest.Author.Login, node.PullRequest.CreatedAt⟩,
        node.PullRequest.Repository.Name, node.PullRequest.Author.Login,
        isInternalAssociation node.PullRequest.AuthorAssociation, true⟩
  else
    if node.Issue.ID = "" ∨ node.Issue.Repository.Name = "" then
      ⟨⟨"", 0, "", "", ""⟩, "", "", false, false⟩
    else
      ⟨⟨node.Issue.Repository.Name, node.Issue.Number, node.Issue.Title,
          node.Issue.Author.Login, node.Issue.CreatedAt⟩,
        node.Issue.Repository.Name, node.Issue.Author.Login,
        isInternalAssociation node.Issue.AuthorAssociation, true⟩

/-- The body of the `for _, node := range q.Search.Nodes` loop of
`Scanner.search`: extraction, prefix filter, repository tracking, skip
filter, audience filter, buffer append. -/
def Scanner.processNode (s : Scanner) (isPR : Bool) (st : SearchBufs) (node : SearchNode) :
    SearchBufs :=
  let e := s.extractItem node isPR
  if e.ok = false then st
  else if hasPrefixStr e.repoName s.cfg.RepoPrefix = false then st
  else
    let st1 : SearchBufs := { st with repos := insert e.repoName st.repos }
    if s.skipUsers.length > 0 ∧ e.author ≠ "" ∧ toLowerStr e.author ∈ s.skipUsers then st1
    else if s.cfg.Audience = AudienceInternal ∧ e.internalAuthor = false then st1
    else if s.cfg.Audience = AudienceExternal ∧ e.internalAuthor = true then st1
    else if e.internalAuthor = true then { st1 with internal := st1.internal ++ [e.item] }
    else { st1 with external := st1.external ++ [e.item] }

/-- The node loop of `Scanner.search` over one page's node list. -/
def Scanner.processNodes (s : Scanner) (isPR : Bool) (st : SearchBufs)
    (nodes : List SearchNode) : SearchBufs :=
  nodes.foldl (s.processNode isPR) st

/-- `fmt.Sprintf("org:%s %s", s.cfg.Organization, params.querySuffix)`. -/
def searchQueryString (s : Scanner) (querySuffix : String) : String :=
  "org:" ++ s.cfg.Organization ++ " " ++ querySuffix

/-- The page loop of `Scanner.search` driven by the oracle's answers in
order: a query error aborts the run with that error (buffers discarded, as
the source returns nil slices), otherwise the page's nodes are processed and
the loop continues while `HasNextPage`. -/
def Scanner.search (s : Scanner) (isPR : Bool) :
    SearchBufs → List QueryResult → Except String SearchBufs
  | _, [] => .error "no response"
  | _, .error e :: _ => .error e
  | st, .ok pg :: rest =>
    let st1 := s.processNodes isPR st pg.Nodes
    if pg.HasNextPage then s.search isPR st1 rest
    else .ok st1

/-- `mergeRepoSets` of scanner.go: set union (the source's nil guard is the
union with the empty set). -/
def mergeRepoSets (dst src : Finset String) : Finset String :=
  dst ∪ src

/-- `make(chan segment, 2)`: the completion channel's buffer capacity. -/
def resultChanCapacity : Nat := 2

/-- How many category workers `Scan` spawns for a scanner's config. -/
def numWorkers (s : Scanner) : Nat :=
  (if s.cfg.IncludeIssues then 1 else 0) + (if s.cfg.IncludePRs then 1 else 0)

/-- The `Result` value `Scan` initializes before any segment arrives. -/
def emptyResult (s : Scanner) : Result :=
  { ExternalIssues := [], InternalIssues := [], ExternalPRs := [], InternalPRs := [],
    TotalRepos := 0, IncludeIssues := s.cfg.IncludeIssues, IncludePRs := s.cfg.IncludePRs,
    Audience := s.cfg.Audience }

/-- The merge of one error-free segment into the result under construction
(the `if seg.isPR` branch of the drain loop of `Scan`). -/
def mergeSegment (res : Result) (seg : Segment) : Result :=
  if seg.isPR then
    { res with ExternalPRs := res.ExternalPRs ++ seg.external,
               InternalPRs := res.InternalPRs ++ seg.internal }
  else
    { res with ExternalIssues := res.ExternalIssues ++ seg.external,
               InternalIssues := res.InternalIssues ++ seg.internal }

/-- The `for seg := range resultCh` loop of `Scan` over the delivered
segments, together with how many segments the loop consumed: an erroneous
segment makes the loop return that error at once (consuming no further
completion); when the channel closes with no error seen, `TotalRepos` is set
to the merged repo set's size. -/
def consumeLoop (res : Result) (repoSet : Finset String) :
    List Segment → Except String Result × Nat
  | [] => (.ok { res with TotalRepos := repoSet.card }, 0)
  | seg :: rest =>
    match seg.err with
    | some e => (.error e, 1)
    | none =>
      let out := consumeLoop (mergeSegment res seg) (mergeRepoSets repoSet seg.repos) rest
      (out.1, out.2 + 1)

/-- The first non-nil error among delivered segments, in delivery order. -/
def firstErr : List Segment → Option String
  | [] => none
  | seg :: rest =>
    match seg.err with
    | some e => some e
    | none => firstErr rest

/-- The state of one category worker between page fetches: still inside the
page loop of `Scanner.search` (with its private buffers and the oracle's
remaining answers), or finished (its segment sent on `resultCh`). -/
inductive WorkerState where
  | running (bufs : SearchBufs) (pages : List QueryResult)
  | finished

/-- The shared state of one `Scan` call while workers run: the cancellable
context's flag, the two optional category workers (`none` = category not
enabled), the segments sent on `resultCh` in delivery order, and how many
page requests have reached the transport. -/
structure ScanState where
  cancelled : Bool
  issueW : Option WorkerState
  prW : Option WorkerState
  delivered : List Segment
  fetches : Nat

/-- One page-loop iteration of a worker under the shared context: a cancelled
context makes the pending `graph.Query` return the context's error without a
page request being issued (the cooperative-cancellation contract of the
transport); otherwise the next oracle answer is consumed — an error ends the
run with an erroneous segment and discarded buffers, a page is processed by
the node loop and the run continues while `HasNextPage`. Returns the new
worker state, the segment sent if the run ended, and the page requests
issued. -/
def stepWorker (s : Scanner) (isPR cancelled : Bool) (bufs : SearchBufs)
    (pages : List QueryResult) : WorkerState × Option Segment × Nat :=
  if cancelled then
    (.finished, some ⟨[], [], ∅, isPR, some "context canceled"⟩, 0)
  else
    match pages with
    | [] => (.finished, some ⟨[], [], ∅, isPR, some "no response"⟩, 1)
    | .error e :: _ => (.finished, some ⟨[], [], ∅, isPR, some e⟩, 1)
    | .ok pg :: rest =>
      let bufs1 := s.processNodes isPR bufs pg.Nodes
      if pg.HasNextPage then (.running bufs1 rest, none, 1)
      else (.finished, some ⟨bufs1.external, bufs1.internal, bufs1.repos, isPR, none⟩, 1)

/-- One scheduler step of the concurrent phase of `Scan`: the chosen category
worker (`true` = the pull-request worker, matching `params.isPR`) performs
one page-loop iteration; a segment it sends is appended to the delivery
order, and `runSearch` cancels the shared context when that segment carries
an error. Choosing a disabled or finished worker changes nothing. -/
def scanStep (s : Scanner) (st : ScanState) (choice : Bool) : ScanState :=
  match (if choice then st.prW else st.issueW) with
  | some (.running bufs pages) =>
    let out := stepWorker s choice st.cancelled bufs pages
    let st1 := if choice then { st with prW := some out.1 }
      else { st with issueW := some out.1 }
    let st2 := { st1 with fetches := st1.fetches + out.2.2 }
    match out.2.1 with
    | none => st2
    | some seg =>
      { st2 with delivered := st2.delivered ++ [seg],
                 cancelled := st2.cancelled || seg.err.isSome }
  | _ => st

/-- The concurrent phase of `Scan` under a scheduler's interleaving. -/
def scanRun (s : Scanner) (st : ScanState) (sch : List Bool) : ScanState :=
  sch.foldl (scanStep s) st

/-- The state right after `Scan` spawns its workers: a worker per enabled
category, the derived context inheriting the parent's cancellation. -/
def scanInit (s : Scanner) (parentCancelled : Bool)
    (issuePages prPages : List QueryResult) : ScanState :=
  { cancelled := parentCancelled,
    issueW := if s.cfg.IncludeIssues then some (.running ⟨[], [], ∅⟩ issuePages) else none,
    prW := if s.cfg.IncludePRs then some (.running ⟨[], [], ∅⟩ prPages) else none,
    delivered := [], fetches := 0 }

/-- All spawned workers have completed (the `wg.Wait` goroutine has closed
`resultCh`). -/
def ScanState.completed (st : ScanState) : Prop :=
  (st.issueW = none ∨ st.issueW = some .finished) ∧
  (st.prW = none ∨ st.prW = some .finished)

/-- The nil-context guard at the top of `Scan`: a nil context is replaced by
`context.Background()`, which is never cancelled; an explicit context
contributes its own cancellation flag. -/
def ctxCancelled : Option Bool → Bool
  | none => false
  | some c => c

/-- `Scanner.Scan` of scanner.go over a page oracle per category and a
scheduler interleaving: a nil context (`ctx = none`) is replaced by the
background context, whose cancellation flag is off; an explicit context
carries its own flag. The workers of the enabled categories run to the
scheduler's end, and the delivered segments are drained by the result loop. -/
def Scanner.Scan (s : Scanner) (ctx : Option Bool) (issuePages prPages : List QueryResult)
    (sch : List Bool) : Except String Result :=
  let final := scanRun s (scanInit s (ctxCancelled ctx) issuePages prPages) sch
  (consumeLoop (emptyResult s) ∅ final.delivered).1

/-- `Except.isOk` written out, to state construction success as a `Bool`. -/
def isOkE {ε α : Type} : Except ε α → Bool
  | .ok _ => true
  | .error _ => false


/-- Concrete scanner used by witnesses: `org:acme`, prefix `infra-`, no skip
users, both categories, audience all. -/
def sampleScanner : Scanner :=
  { cfg := { Organization := "acme", RepoPrefix := "infra-", SkipUsers := [],
             IncludeIssues := true, IncludePRs := true, Audience := "all" },
    skipUsers := [] }

/-- An issue-fragment search node for witnesses. -/
def issueSearchNode (id repo author assoc : String) : SearchNode :=
  ⟨⟨id, 1, "t", "2024-01-01", assoc, ⟨author⟩, ⟨repo⟩⟩,
   ⟨"", 0, "", "", "", ⟨""⟩, ⟨""⟩⟩⟩

/-- A pull-request-fragment search node for witnesses. -/
def prSearchNode (id repo author assoc : String) : SearchNode :=
  ⟨⟨"", 0, "", "", "", ⟨""⟩, ⟨""⟩⟩,
   ⟨id, 2, "t", "2024-01-02", assoc, ⟨author⟩, ⟨repo⟩⟩⟩

theorem processNode_repos_insert (s : Scanner) (isPR : Bool) (st : SearchBufs)
    (node : SearchNode)
    (hok : (s.extractItem node isPR).ok = true)
    (hp : hasPrefixStr (s.extractItem node isPR).repoName s.cfg.RepoPrefix = true) :
    (s.processNode isPR st node).repos = insert (s.extractItem node isPR).repoName st.repos := by
  unfold Scanner.processNode
  simp only [hok, hp]
  repeat' split
  all_goals simp_all

/-- C1: every node that passes the prefix filter in a category run has its
repository name inserted into that run's repo set unconditionally, before the
skip and audience filters; over any non-empty batch of qualifying nodes of
one repository the set gains that repository exactly once, and it stays in
the set even when every one of its items is later rejected by the skip or
audience filter (the hypotheses say nothing about those filters). -/
theorem prefix_passing_repo_tracked_once (s : Scanner) (isPR : Bool) (st : SearchBufs)
    (nodes : List SearchNode) (r : String)
    (hne : nodes ≠ [])
    (hall : ∀ n ∈ nodes, (s.extractItem n isPR).ok = true ∧
      hasPrefixStr (s.extractItem n isPR).repoName s.cfg.RepoPrefix = true ∧
      (s.extractItem n isPR).repoName = r) :
    (s.processNodes isPR st nodes).repos = insert r st.repos := by
  revert hne hall
  induction nodes generalizing st with
  | nil =>
    intro hne _
    exact absurd rfl hne
  | cons x xs ih =>
    intro _ hall
    obtain ⟨hok, hp, hr⟩ := hall x (by simp)
    have hx : (s.processNode isPR st x).repos = insert r st.repos := by
      rw [processNode_repos_insert s isPR st x hok hp, hr]
    cases xs with
    | nil =>
      simpa [Scanner.processNodes] using hx
    | cons y ys =>
      have hstep : s.processNodes isPR st (x :: y :: ys) =
          s.processNodes isPR (s.processNode isPR st x) (y :: ys) := rfl
      have h2 := ih (s.processNode isPR st x) (by simp)
        (fun n hn => hall n (by simp [hn]))
      rw [hstep, h2, hx, Finset.insert_idem]

/-- Scanner whose skip set holds alice, for witnesses. -/
def skipScanner : Scanner :=
  { cfg := { Organization := "acme", RepoPrefix := "infra-", SkipUsers := ["alice"],
             IncludeIssues := true, IncludePRs := true, Audience := "all" },
    skipUsers := ["alice"] }

/-- Witness for C1: two qualifying issues of `infra-core`, both authored by
the skip-listed alice, still put the repository into the repo set once. -/
theorem prefix_passing_repo_tracked_once_witness :
    (skipScanner.processNodes false ⟨[], [], ∅⟩
      [issueSearchNode "i1" "infra-core" "alice" "NONE",
       issueSearchNode "i2" "infra-core" "alice" "NONE"]).repos =
      insert "infra-core" (∅ : Finset String) :=
  prefix_passing_repo_tracked_once skipScanner false ⟨[], [], ∅⟩
    [issueSearchNode "i1" "infra-core" "alice" "NONE",
     issueSearchNode "i2" "infra-core" "alice" "NONE"] "infra-core"
    (by decide) (by decide)

/-- C5: the association classifier returns true exactly on
Owner/Member/Collaborator and false on every other raw value. -/
theorem association_internal_iff (assoc : String) :
    isInternalAssociation assoc = true ↔
      (assoc = AssociationOwner ∨ assoc = AssociationMember ∨
        assoc = AssociationCollaborator) := by
  unfold isInternalAssociation
  split <;> first
    | (simp_all; tauto)
    | simp_all

/-- C6: a node whose identity or repository name is empty for the searched
category fails extraction (ok=false), yields the zero Item, and the node
loop leaves the run's buffers and repo set untouched. -/
theorem extract_missing_identity_skipped (s : Scanner) (st : SearchBufs) (node : SearchNode)
    (isPR : Bool)
    (h : if isPR then node.PullRequest.ID = "" ∨ node.PullRequest.Repository.Name = ""
      else node.Issue.ID = "" ∨ node.Issue.Repository.Name = "") :
    (s.extractItem node isPR).ok = false ∧
    (s.extractItem node isPR).item = ⟨"", 0, "", "", ""⟩ ∧
    s.processNode isPR st node = st := by
  have he : s.extractItem node isPR = ⟨⟨"", 0, "", "", ""⟩, "", "", false, false⟩ := by
    cases isPR <;> simp_all [Scanner.extractItem]
  refine ⟨by rw [he], by rw [he], ?_⟩
  unfold Scanner.processNode
  simp [he]

/-- Witness for C6: an issue node with an empty identity is not extracted and
is skipped without error. -/
theorem extract_missing_identity_skipped_witness :
    (sampleScanner.extractItem (issueSearchNode "" "infra-core" "alice" "NONE") false).ok =
      false ∧
    (sampleScanner.extractItem (issueSearchNode "" "infra-core" "alice" "NONE") false).item =
      ⟨"", 0, "", "", ""⟩ ∧
    sampleScanner.processNode false ⟨[], [], ∅⟩
      (issueSearchNode "" "infra-core" "alice" "NONE") = ⟨[], [], ∅⟩ :=
  extract_missing_identity_skipped sampleScanner ⟨[], [], ∅⟩
    (issueSearchNode "" "infra-core" "alice" "NONE") false (by decide)

theorem extractItem_receiver_independent (s t : Scanner) (node : SearchNode) (isPR : Bool) :
    s.extractItem node isPR = t.extractItem node isPR := rfl

/-- C4: an item with a non-empty author whose lower-cased login is in a
non-empty skip set is excluded from both buffers (only the repo set is
updated); an item with an empty author login is never rejected by the skip
filter — the node is processed exactly as under an empty skip set. -/
theorem skip_filter_semantics (s : Scanner) (isPR : Bool) (st : SearchBufs) (node : SearchNode)
    (hok : (s.extractItem node isPR).ok = true)
    (hp : hasPrefixStr (s.extractItem node isPR).repoName s.cfg.RepoPrefix = true) :
    (s.skipUsers ≠ [] → (s.extractItem node isPR).author ≠ "" →
      toLowerStr (s.extractItem node isPR).author ∈ s.skipUsers →
      s.processNode isPR st node =
        { st with repos := insert (s.extractItem node isPR).repoName st.repos }) ∧
    ((s.extractItem node isPR).author = "" →
      s.processNode isPR st node =
        Scanner.processNode { s with skipUsers := [] } isPR st node) := by
  constructor
  · intro hne ha hm
    have hlen : s.skipUsers.length > 0 := List.length_pos.mpr hne
    unfold Scanner.processNode
    simp only [hok, hp]
    repeat' split
    all_goals simp_all
  · intro ha
    unfold Scanner.processNode
    have hind : Scanner.extractItem { s with skipUsers := ([] : List String) } node isPR =
        s.extractItem node isPR := rfl
    simp only [hind, ha]
    simp

/-- Witness for C4: skip-listed author `Alice` (lower-cased to `alice`) is
dropped from both buffers while the repository stays tracked. -/
theorem skip_filter_semantics_witness :
    skipScanner.processNode false ⟨[], [], ∅⟩
      (issueSearchNode "i1" "infra-core" "Alice" "NONE") =
      ⟨[], [], insert "infra-core" (∅ : Finset String)⟩ :=
  (skip_filter_semantics skipScanner false ⟨[], [], ∅⟩
    (issueSearchNode "i1" "infra-core" "Alice" "NONE") (by decide) (by decide)).1
    (by decide) (by decide) (by decide)

/-- C3: for an item surviving the prefix and skip filters, audience Internal
keeps it iff its author is internal, External iff not internal, All always;
each kept item lands in exactly one buffer, the internal one for an internal
author and the external one otherwise. -/
theorem audience_filter_routes (s : Scanner) (isPR : Bool) (st : SearchBufs) (node : SearchNode)
    (hok : (s.extractItem node isPR).ok = true)
    (hp : hasPrefixStr (s.extractItem node isPR).repoName s.cfg.RepoPrefix = true)
    (hns : ¬(s.skipUsers.length > 0 ∧ (s.extractItem node isPR).author ≠ "" ∧
      toLowerStr (s.extractItem node isPR).author ∈ s.skipUsers)) :
    (s.cfg.Audience = AudienceInternal →
      s.processNode isPR st node =
        if (s.extractItem node isPR).internalAuthor = true then
          { st with repos := insert (s.extractItem node isPR).repoName st.repos,
                    internal := st.internal ++ [(s.extractItem node isPR).item] }
        else { st with repos := insert (s.extractItem node isPR).repoName st.repos }) ∧
    (s.cfg.Audience = AudienceExternal →
      s.processNode isPR st node =
        if (s.extractItem node isPR).internalAuthor = true then
          { st with repos := insert (s.extractItem node isPR).repoName st.repos }
        else { st with repos := insert (s.extractItem node isPR).repoName st.repos,
                       external := st.external ++ [(s.extractItem node isPR).item] }) ∧
    (s.cfg.Audience = AudienceAll →
      s.processNode isPR st node =
        if (s.extractItem node isPR).internalAuthor = true then
          { st with repos := insert (s.extractItem node isPR).repoName st.repos,
                    internal := st.internal ++ [(s.extractItem node isPR).item] }
        else { st with repos := insert (s.extractItem node isPR).repoName st.repos,
                       external := st.external ++ [(s.extractItem node isPR).item] }) := by
  have hIE : AudienceInternal ≠ AudienceExternal := by decide
  have hEI : AudienceExternal ≠ AudienceInternal := by decide
  have hAI : AudienceAll ≠ AudienceInternal := by decide
  have hAE : AudienceAll ≠ AudienceExternal := by decide
  refine ⟨?_, ?_, ?_⟩ <;> intro ha <;>
    cases hia : (s.extractItem node isPR).internalAuthor <;>
      (unfold Scanner.processNode; simp_all)

/-- Witness for C3: with audience All, alice's MEMBER issue is kept and
appended to the internal buffer only. -/
theorem audience_filter_routes_witness :
    sampleScanner.processNode false ⟨[], [], ∅⟩
      (issueSearchNode "i1" "infra-core" "alice" "MEMBER") =
      ⟨[], [⟨"infra-core", 1, "t", "alice", "2024-01-01"⟩],
        insert "infra-core" (∅ : Finset String)⟩ :=
  ((audience_filter_routes sampleScanner false ⟨[], [], ∅⟩
    (issueSearchNode "i1" "infra-core" "alice" "MEMBER")
    (by decide) (by decide) (by decide)).2.2 rfl).trans (by decide)

/-- Config with everything valid but an empty audience, as the CLI may pass
before defaulting. -/
def cfgEmptyAudience : Config :=
  { Organization := "acme", RepoPrefix := "infra-", SkipUsers := [],
    IncludeIssues := true, IncludePRs := true, Audience := "" }

/-- Counterexample to C8 as stated: the empty audience is not one of the
three valid values, yet construction succeeds (`New` first defaults the
empty audience to All and only then validates). -/
theorem new_accepts_empty_audience :
    isOkE (New cfgEmptyAudience true) = true ∧
    cfgEmptyAudience.Audience ≠ AudienceAll ∧
    cfgEmptyAudience.Audience ≠ AudienceInternal ∧
    cfgEmptyAudience.Audience ≠ AudienceExternal := by decide

/-- C8 amended: construction fails exactly when the client is missing, the
organization or prefix is blank, or the audience is non-empty and not one of
the three valid values (an empty audience is defaulted to All); and a
construction that succeeds with neither category requested has both include
flags defaulted to true. -/
theorem new_validation (cfg : Config) (g : Bool) :
    (isOkE (New cfg g) = false ↔
      (g = false ∨ isBlank cfg.Organization = true ∨ isBlank cfg.RepoPrefix = true ∨
        (cfg.Audience ≠ "" ∧ cfg.Audience ≠ AudienceAll ∧ cfg.Audience ≠ AudienceInternal ∧
          cfg.Audience ≠ AudienceExternal))) ∧
    (g = true → isBlank cfg.Organization = false → isBlank cfg.RepoPrefix = false →
      cfg.IncludeIssues = false → cfg.IncludePRs = false →
      (cfg.Audience = "" ∨ cfg.Audience = AudienceAll ∨ cfg.Audience = AudienceInternal ∨
        cfg.Audience = AudienceExternal) →
      ∃ t, New cfg g = .ok t ∧ t.cfg.IncludeIssues = true ∧ t.cfg.IncludePRs = true) := by
  have dAI : ¬(AudienceAll = AudienceInternal) := by decide
  have dAE : ¬(AudienceAll = AudienceExternal) := by decide
  have dIE : ¬(AudienceInternal = AudienceExternal) := by decide
  have dIA : ¬(AudienceInternal = AudienceAll) := by decide
  have dEA : ¬(AudienceExternal = AudienceAll) := by decide
  have dEI : ¬(AudienceExternal = AudienceInternal) := by decide
  have dA0 : ¬(AudienceAll = "") := by decide
  have dI0 : ¬(AudienceInternal = "") := by decide
  have dE0 : ¬(AudienceExternal = "") := by decide
  constructor
  · by_cases hg : g = false
    all_goals by_cases ho : isBlank cfg.Organization = true
    all_goals by_cases hp : isBlank cfg.RepoPrefix = true
    all_goals by_cases hinc : cfg.IncludeIssues = false ∧ cfg.IncludePRs = false
    all_goals by_cases hau : cfg.Audience = ""
    all_goals by_cases h1 : cfg.Audience = AudienceAll
    all_goals by_cases h2 : cfg.Audience = AudienceInternal
    all_goals by_cases h3 : cfg.Audience = AudienceExternal
    all_goals simp_all [New, isOkE, apply_ite]
  · intro hg ho hp hii hpr hau
    unfold New
    rw [if_neg (by simp [hg]), if_neg (by simp [ho]), if_neg (by simp [hp])]
    rcases hau with h | h | h | h <;>
      (simp_all [apply_ite, dA0, dI0, dE0, dAI, dAE, dIA, dIE, dEA, dEI]
       try exact ⟨_, rfl, rfl, rfl⟩)

theorem scanStep_frozen (s : Scanner) (st : ScanState) (c : Bool) (h : st.cancelled = true) :
    (scanStep s st c).cancelled = true ∧ (scanStep s st c).fetches = st.fetches := by
  cases c with
  | false =>
    cases hs : st.issueW with
    | none => simp [scanStep, hs, h]
    | some w =>
      cases w with
      | running bufs pages => simp [scanStep, stepWorker, hs, h]
      | finished => simp [scanStep, hs, h]
  | true =>
    cases hs : st.prW with
    | none => simp [scanStep, hs, h]
    | some w =>
      cases w with
      | running bufs pages => simp [scanStep, stepWorker, hs, h]
      | finished => simp [scanStep, hs, h]

theorem scanRun_frozen (s : Scanner) (q : List Bool) :
    ∀ st : ScanState, st.cancelled = true →
      (scanRun s st q).cancelled = true ∧ (scanRun s st q).fetches = st.fetches := by
  induction q with
  | nil => intro st h; exact ⟨h, rfl⟩
  | cons c q ih =>
    intro st h
    have hstep : scanRun s st (c :: q) = scanRun s (scanStep s st c) q := rfl
    have h1 := scanStep_frozen s st c h
    have h2 := ih (scanStep s st c) h1.1
    rw [hstep]
    exact ⟨h2.1, by rw [h2.2, h1.2]⟩

theorem scanStep_inv (s : Scanner) (st : ScanState) (c : Bool)
    (h : (∃ seg ∈ st.delivered, seg.err.isSome) → st.cancelled = true) :
    (∃ seg ∈ (scanStep s st c).delivered, seg.err.isSome) →
      (scanStep s st c).cancelled = true := by
  cases c with
  | false =>
    cases hs : st.issueW with
    | none => simpa [scanStep, hs] using h
    | some w =>
      cases w with
      | finished => simpa [scanStep, hs] using h
      | running bufs pages =>
        by_cases hc : st.cancelled = true
        · simp [scanStep, stepWorker, hs, hc]
        · cases pages with
          | nil => simp [scanStep, stepWorker, hs, hc]
          | cons p rest =>
            cases p with
            | error e => simp [scanStep, stepWorker, hs, hc]
            | ok pg =>
              by_cases hn : pg.HasNextPage = true
              · simpa [scanStep, stepWorker, hs, hc, hn] using h
              · intro hex
                simp [scanStep, stepWorker, hs, hc, hn] at hex ⊢
                rcases hex with ⟨seg, hm | hm, hsome⟩
                · exact absurd (h ⟨seg, hm, hsome⟩) (by simp [hc])
                · rw [hm] at hsome
                  simp at hsome
  | true =>
    cases hs : st.prW with
    | none => simpa [scanStep, hs] using h
    | some w =>
      cases w with
      | finished => simpa [scanStep, hs] using h
      | running bufs pages =>
        by_cases hc : st.cancelled = true
        · simp [scanStep, stepWorker, hs, hc]
        · cases pages with
          | nil => simp [scanStep, stepWorker, hs, hc]
          | cons p rest =>
            cases p with
            | error e => simp [scanStep, stepWorker, hs, hc]
            | ok pg =>
              by_cases hn : pg.HasNextPage = true
              · simpa [scanStep, stepWorker, hs, hc, hn] using h
              · intro hex
                simp [scanStep, stepWorker, hs, hc, hn] at hex ⊢
                rcases hex with ⟨seg, hm | hm, hsome⟩
                · exact absurd (h ⟨seg, hm, hsome⟩) (by simp [hc])
                · rw [hm] at hsome
                  simp at hsome

theorem scanRun_inv (s : Scanner) (q : List Bool) :
    ∀ st : ScanState, ((∃ seg ∈ st.delivered, seg.err.isSome) → st.cancelled = true) →
      ((∃ seg ∈ (scanRun s st q).delivered, seg.err.isSome) →
        (scanRun s st q).cancelled = true) := by
  induction q with
  | nil => intro st h; exact h
  | cons c q ih =>
    intro st h
    have hstep : scanRun s st (c :: q) = scanRun s (scanStep s st c) q := rfl
    rw [hstep]
    exact ih (scanStep s st c) (scanStep_inv s st c h)

theorem consumeLoop_first_error (res : Result) (rs : Finset String) (segs : List Segment)
    (h : ∃ seg ∈ segs, seg.err.isSome) :
    ∃ e, (consumeLoop res rs segs).1 = .error e ∧ firstErr segs = some e := by
  revert h
  induction segs generalizing res rs with
  | nil => intro h; exact absurd h (by simp)
  | cons seg rest ih =>
    intro h
    cases he : seg.err with
    | some e => exact ⟨e, by simp [consumeLoop, he], by simp [firstErr, he]⟩
    | none =>
      have h2 : ∃ t ∈ rest, t.err.isSome := by
        rcases h with ⟨t, ht, hts⟩
        rcases List.mem_cons.mp ht with rfl | htr
        · rw [he] at hts; simp at hts
        · exact ⟨t, htr, hts⟩
      obtain ⟨e, h3, h4⟩ := ih (mergeSegment res seg) (mergeRepoSets rs seg.repos) h2
      exact ⟨e, by simp [consumeLoop, he, h3], by simp [firstErr, he, h4]⟩

/-- C2: with at least one category enabled, any run in which a delivered
segment carries an error makes `Scan` return a non-nil error — the
first-observed segment error in delivery order — and leaves the shared
context cancelled; and from any point at which the shared context is
cancelled, no run issues a single further page request under any
continuation of the schedule. -/
theorem scan_fail_fast (s : Scanner) (ip pp : List QueryResult) (sch : List Bool)
    (_hen : s.cfg.IncludeIssues = true ∨ s.cfg.IncludePRs = true)
    (herr : ∃ seg ∈ (scanRun s (scanInit s false ip pp) sch).delivered, seg.err.isSome) :
    (∃ e, s.Scan none ip pp sch = .error e ∧
      firstErr (scanRun s (scanInit s false ip pp) sch).delivered = some e) ∧
    (scanRun s (scanInit s false ip pp) sch).cancelled = true ∧
    (∀ p q : List Bool, (scanRun s (scanInit s false ip pp) p).cancelled = true →
      (scanRun s (scanRun s (scanInit s false ip pp) p) q).fetches =
        (scanRun s (scanInit s false ip pp) p).fetches) := by
  refine ⟨?_, ?_, ?_⟩
  · obtain ⟨e, h1, h2⟩ := consumeLoop_first_error (emptyResult s) ∅
      (scanRun s (scanInit s false ip pp) sch).delivered herr
    exact ⟨e, h1, h2⟩
  · exact scanRun_inv s sch (scanInit s false ip pp) (by simp [scanInit]) herr
  · intro p q hc
    exact (scanRun_frozen s q (scanRun s (scanInit s false ip pp) p) hc).2

/-- Issue-category oracle whose first page request fails. -/
def ipBoom : List QueryResult := [.error "boom"]

/-- Pull-request-category oracle: one empty last page. -/
def ppQuiet : List QueryResult := [.ok ⟨0, false, "", []⟩]

/-- Witness for C2: the issue fetch fails, the PR worker is cancelled, and
the scan returns the first error. -/
theorem scan_fail_fast_witness :
    (∃ e, sampleScanner.Scan none ipBoom ppQuiet [false, true] = .error e ∧
      firstErr (scanRun sampleScanner (scanInit sampleScanner false ipBoom ppQuiet)
        [false, true]).delivered = some e) ∧
    (scanRun sampleScanner (scanInit sampleScanner false ipBoom ppQuiet)
      [false, true]).cancelled = true ∧
    (∀ p q : List Bool,
      (scanRun sampleScanner (scanInit sampleScanner false ipBoom ppQuiet) p).cancelled = true →
      (scanRun sampleScanner
        (scanRun sampleScanner (scanInit sampleScanner false ipBoom ppQuiet) p) q).fetches =
        (scanRun sampleScanner (scanInit sampleScanner false ipBoom ppQuiet) p).fetches) :=
  scan_fail_fast sampleScanner ipBoom ppQuiet [false, true] (by decide) (by decide)

/-- C7: a successful scan's `TotalRepos` is the size of the union of the two
per-category repo sets: at most the sum of their sizes, with equality
exactly when they are disjoint. -/
theorem total_repos_union (s : Scanner) (ctx : Option Bool) (ip pp : List QueryResult)
    (sch : List Bool) (g1 g2 : Segment)
    (hd : (scanRun s (scanInit s (ctxCancelled ctx) ip pp) sch).delivered = [g1, g2])
    (h1 : g1.err = none) (h2 : g2.err = none) :
    ∃ r, s.Scan ctx ip pp sch = .ok r ∧
      r.TotalRepos = (g1.repos ∪ g2.repos).card ∧
      r.TotalRepos ≤ g1.repos.card + g2.repos.card ∧
      (r.TotalRepos = g1.repos.card + g2.repos.card ↔ Disjoint g1.repos g2.repos) := by
  have key : s.Scan ctx ip pp sch = .ok
      { mergeSegment (mergeSegment (emptyResult s) g1) g2 with
        TotalRepos := (g1.repos ∪ g2.repos).card } := by
    simp only [Scanner.Scan, hd, consumeLoop, h1, h2, mergeRepoSets, Finset.empty_union]
  refine ⟨_, key, rfl, Finset.card_union_le _ _, ?_, ?_⟩
  · intro hEq
    have hEq2 : (g1.repos ∪ g2.repos).card = g1.repos.card + g2.repos.card := hEq
    have hsum := Finset.card_union_add_card_inter g1.repos g2.repos
    have hint : (g1.repos ∩ g2.repos).card = 0 := by omega
    rw [Finset.card_eq_zero] at hint
    exact Finset.disjoint_iff_inter_eq_empty.mpr hint
  · intro hdisj
    exact Finset.card_union_of_disjoint hdisj

/-- Issue oracle: one last page with one qualifying issue of `infra-a`. -/
def ipOne : List QueryResult :=
  [.ok ⟨1, false, "", [issueSearchNode "i1" "infra-a" "alice" "MEMBER"]⟩]

/-- PR oracle: one last page with one qualifying pull request of `infra-a`. -/
def ppOne : List QueryResult :=
  [.ok ⟨1, false, "", [prSearchNode "p1" "infra-a" "bob" "NONE"]⟩]

/-- The issue worker's segment for `ipOne`. -/
def segIssueW : Segment :=
  ⟨[], [⟨"infra-a", 1, "t", "alice", "2024-01-01"⟩], insert "infra-a" ∅, false, none⟩

/-- The PR worker's segment for `ppOne`. -/
def segPRW : Segment :=
  ⟨[⟨"infra-a", 2, "t", "bob", "2024-01-02"⟩], [], insert "infra-a" ∅, true, none⟩

/-- Witness for C7: a repository with both a matching issue and a matching
PR counts once — the union of two overlapping singleton repo sets. -/
theorem total_repos_union_witness :
    ∃ r, sampleScanner.Scan none ipOne ppOne [false, true] = .ok r ∧
      r.TotalRepos = (segIssueW.repos ∪ segPRW.repos).card ∧
      r.TotalRepos ≤ segIssueW.repos.card + segPRW.repos.card ∧
      (r.TotalRepos = segIssueW.repos.card + segPRW.repos.card ↔
        Disjoint segIssueW.repos segPRW.repos) :=
  total_repos_union sampleScanner none ipOne ppOne [false, true] segIssueW segPRW
    (by decide) rfl rfl

/-- C9 amended: on the first erroneous completion the drain loop of `Scan`
returns that error at once, having consumed only the error-free completions
delivered before it plus the erroneous one; worker goroutines still cannot
leak, because the completion channel's capacity (2) is at least the number
of spawned workers, so the unread completions are buffered without a
reader. -/
theorem first_error_consumes_prefix_only (res : Result) (rs : Finset String)
    (pre post : List Segment) (seg : Segment) (e : String)
    (hpre : ∀ t ∈ pre, t.err = none) (he : seg.err = some e) :
    (consumeLoop res rs (pre ++ seg :: post)).1 = .error e ∧
    (consumeLoop res rs (pre ++ seg :: post)).2 = pre.length + 1 ∧
    (∀ s : Scanner, numWorkers s ≤ resultChanCapacity) := by
  have main : ∀ (pr : List Segment) (res : Result) (rs : Finset String),
      (∀ t ∈ pr, t.err = none) →
      (consumeLoop res rs (pr ++ seg :: post)).1 = .error e ∧
      (consumeLoop res rs (pr ++ seg :: post)).2 = pr.length + 1 := by
    intro pr
    induction pr with
    | nil => intro res rs _; simp [consumeLoop, he]
    | cons t ts ih =>
      intro res rs hp
      have ht : t.err = none := hp t (by simp)
      have hrec := ih (mergeSegment res t) (mergeRepoSets rs t.repos)
        (fun u hu => hp u (by simp [hu]))
      refine ⟨?_, ?_⟩ <;> simp [consumeLoop, ht, hrec.1, hrec.2]
  refine ⟨(main pre res rs hpre).1, (main pre res rs hpre).2, ?_⟩
  intro s
  unfold numWorkers resultChanCapacity
  split <;> split <;> omega

/-- An erroneous completion, delivered first. -/
def segBoomC : Segment := ⟨[], [], ∅, false, some "boom"⟩

/-- An error-free completion, delivered second. -/
def segOkC : Segment := ⟨[], [], ∅, true, none⟩

/-- Counterexample to C9 as stated: with an erroneous completion delivered
first, the drain loop of `Scan` returns after consuming one of the two
outstanding completions — it does not drain every outstanding completion
before returning the first error. -/
theorem orchestrator_returns_before_draining :
    (consumeLoop (emptyResult sampleScanner) ∅ [segBoomC, segOkC]).1 = .error "boom" ∧
    (consumeLoop (emptyResult sampleScanner) ∅ [segBoomC, segOkC]).2 = 1 ∧
    [segBoomC, segOkC].length = 2 :=
  ⟨rfl, rfl, rfl⟩

/-- Witness for the amended C9: one clean completion before the erroneous
one, nothing after it is consumed. -/
theorem first_error_consumes_prefix_only_witness :
    (consumeLoop (emptyResult sampleScanner) ∅ ([segOkC] ++ segBoomC :: [])).1 =
      .error "boom" ∧
    (consumeLoop (emptyResult sampleScanner) ∅ ([segOkC] ++ segBoomC :: [])).2 =
      [segOkC].length + 1 ∧
    (∀ s : Scanner, numWorkers s ≤ resultChanCapacity) :=
  first_error_consumes_prefix_only (emptyResult sampleScanner) ∅ [segOkC] [] segBoomC "boom"
    (by decide) rfl

/-- C10: a nil context is substituted by the background context — `Scan`
under a nil context computes exactly what it computes under the background
context (whose cancellation flag is off), with no failure possible. -/
theorem scan_nil_context (s : Scanner) (ip pp : List QueryResult) (sch : List Bool) :
    s.Scan none ip pp sch = s.Scan (some false) ip pp sch ∧
    ctxCancelled none = false :=
  ⟨rfl, rfl⟩
